import Mathlib

/-!
# StateMachine.h: the behaviour-dispatch wrapper

A shallow embedding of `StateMachine<InternalStateMachine>` from
`src/StateMachine.h`.

* C++ types are compile-time data. The concrete message types a machine
  accepts (those that pass the `static_assert` at the head of `receive`) are
  the elements of an index type `MTy`; a message of C++ type `M` is a value
  of `MVal M`. In the same way the alternatives of
  `std::variant<...> Behavior` are the elements of an index type `BTy`, and a
  state object of type `t` is a value of `BVal t`.
* `_self` is the user's `InternalStateMachine` object; its data is a value of
  `Ctx`, and `prereceive` / `postreceive` are functions on it.
* A user handler `behavior.receive(_self, m)` reads its own state object and
  the message, may update `_self`, and returns `std::optional<NextBehavior>`:
  it is a function to `Ctx × Option _`.
* Message types are unrelated C++ types (no implicit conversions between
  them) and the alternatives of a `std::variant` are pairwise different, so
  `std::is_constructible<std::variant<Ts...>, M>` is membership of `M` in
  `Ts...`.
-/

namespace SM

/-- A type-level declaration as the header distinguishes it with
`detail::isVariant`: one concrete type, or `std::variant<Ts...>`. -/
inductive Shape (T : Type) where
  | single (t : T)
  | variant (ts : List T)

namespace detail

/-- The trait `detail::isVariant` (lines 12-15). -/
def isVariant {T : Type} : Shape T → Bool
  | .single _ => false
  | .variant _ => true

end detail

/-- The trait `std::is_same<S, M>` for a declared type `S` and a concrete type `M`. -/
def is_same {T : Type} [DecidableEq T] : Shape T → T → Bool
  | .single t, M => decide (t = M)
  | .variant _, _ => false

/-- The trait `std::is_constructible<S, M>` for a declared type `S` and a
concrete type `M`. -/
def is_constructible {T : Type} [DecidableEq T] : Shape T → T → Bool
  | .single t, M => decide (t = M)
  | .variant ts, M => decide (M ∈ ts)

/-- The condition of the `if constexpr` at lines 42-47: the handler call is
compiled in for message type `M` when this holds of the active alternative's
`IgnoredMessage`. -/
def handlerEnabled {T : Type} [DecidableEq T] (IgnoredMessage : Shape T) (M : T) : Bool :=
  (detail.isVariant IgnoredMessage && !is_constructible IgnoredMessage M) ||
  (!detail.isVariant IgnoredMessage && !is_same IgnoredMessage M)

/-- The values of a declared `NextBehavior`: a state object of the one type,
or a `std::variant` holding a state object of one of its alternatives. -/
def NextVal {BTy : Type} (BVal : BTy → Type) : Shape BTy → Type
  | .single t => BVal t
  | .variant ts => (t : {t : BTy // t ∈ ts}) × BVal t.1

/-- The assignment to `_behavior` at lines 51-58: with a variant
`NextBehavior` the inner `std::visit` assigns the held member, otherwise the
value itself is assigned; either way the top-level variant then holds that
state object under its own type. -/
def assignNext {BTy : Type} {BVal : BTy → Type} :
    (nb : Shape BTy) → NextVal BVal nb → (t : BTy) × BVal t
  | .single t, newB => ⟨t, newB⟩
  | .variant _, newBehavior => ⟨newBehavior.1.1, newBehavior.2⟩

section Machine

variable (MTy : Type) (MVal : MTy → Type) (Ctx : Type)

/-- What a state type `b` declares: `IgnoredMessage`, `NextBehavior` and the
handler `receive(self, m)`. -/
structure BehaviorDecl (BTy : Type) (BVal : BTy → Type) (b : BTy) where
  IgnoredMessage : Shape MTy
  NextBehavior : Shape BTy
  receive : BVal b → Ctx → (M : MTy) → MVal M → Ctx × Option (NextVal BVal NextBehavior)

/-- The two forms of `InternalStateMachine::Behavior`. -/
inductive BehaviorForm where
  /-- `Behavior` is one state type `B`; it declares `IgnoredMessage` and its
  handler returns `std::optional<B>`; `initial` is `InitialBehavior{}`. -/
  | single (B : Type) (IgnoredMessage : Shape MTy)
      (receive : B → Ctx → (M : MTy) → MVal M → Ctx × Option B) (initial : B)
  /-- `Behavior` is `std::variant` of the state types `BTy`; `initial` is
  `InitialBehavior{}`. -/
  | variant (BTy : Type) (BVal : BTy → Type)
      (decl : (b : BTy) → BehaviorDecl MTy MVal Ctx BTy BVal b)
      (InitialBehavior : BTy) (initial : BVal InitialBehavior)

/-- The type of the member `_behavior` (line 73). -/
def BehaviorForm.Behavior : BehaviorForm MTy MVal Ctx → Type
  | .single B _ _ _ => B
  | .variant BTy BVal _ _ _ => (t : BTy) × BVal t

/-- The user's class `InternalStateMachine`, as the wrapper uses it. -/
structure InternalStateMachine where
  form : BehaviorForm MTy MVal Ctx
  prereceive : Ctx → Ctx
  postreceive : Ctx → Ctx
  /-- The default-constructed object, `_self()`. -/
  defaultSelf : Ctx

/-- The class `StateMachine<InternalStateMachine>`: its two data members
(lines 73-74). -/
structure StateMachine {MTy : Type} {MVal : MTy → Type} {Ctx : Type}
    (d : InternalStateMachine MTy MVal Ctx) where
  _behavior : d.form.Behavior
  _self : Ctx

end Machine

variable {MTy : Type} [DecidableEq MTy] {MVal : MTy → Type} {Ctx : Type}

/-- The constructor `StateMachine()` (line 25). -/
def StateMachine.construct : (d : InternalStateMachine MTy MVal Ctx) → StateMachine d
  | ⟨.single _ _ _ initial, _, _, dflt⟩ => ⟨initial, dflt⟩
  | ⟨.variant _ _ _ InitialBehavior initial, _, _, dflt⟩ => ⟨⟨InitialBehavior, initial⟩, dflt⟩

/-- The member function `receive` (lines 27-71). -/
def StateMachine.receive : (d : InternalStateMachine MTy MVal Ctx) →
    StateMachine d → (M : MTy) → MVal M → StateMachine d
  | ⟨.variant _ _ decl _ _, prereceive, postreceive, _⟩, ⟨⟨b, behavior⟩, _self⟩, M, m =>
    let _self := prereceive _self
    if handlerEnabled (decl b).IgnoredMessage M then
      match (decl b).receive behavior _self M m with
      | (_self, some newBehavior) =>
        ⟨assignNext (decl b).NextBehavior newBehavior, postreceive _self⟩
      | (_self, none) => ⟨⟨b, behavior⟩, postreceive _self⟩
    else
      ⟨⟨b, behavior⟩, postreceive _self⟩
  | ⟨.single _ _ receive _, prereceive, postreceive, _⟩, ⟨_behavior, _self⟩, M, m =>
    let _self := prereceive _self
    match receive _behavior _self M m with
    | (_self, some newBehavior) => ⟨newBehavior, postreceive _self⟩
    | (_self, none) => ⟨_behavior, postreceive _self⟩

/-- The message type `M` is declared ignored, in the words of the
specification: it is the declared `IgnoredMessage`, or a member of it when
that is a closed set. -/
def ignoredBy {T : Type} : Shape T → T → Prop
  | .single t, M => M = t
  | .variant ts, M => M ∈ ts

instance ignoredBy.decidable {T : Type} [DecidableEq T] :
    (ig : Shape T) → (M : T) → Decidable (ignoredBy ig M)
  | .single t, M => inferInstanceAs (Decidable (M = t))
  | .variant ts, M => inferInstanceAs (Decidable (M ∈ ts))

/-- A message together with its C++ type. -/
abbrev AnyMessage (MTy : Type) (MVal : MTy → Type) : Type := (M : MTy) × MVal M

/-- Successive calls `receive(m1); receive(m2); ...` on one instance. -/
def StateMachine.receiveAll (d : InternalStateMachine MTy MVal Ctx) :
    StateMachine d → List (AnyMessage MTy MVal) → StateMachine d
  | sm, [] => sm
  | sm, m :: ms => StateMachine.receiveAll d (StateMachine.receive d sm m.1 m.2) ms

/-- The call `receive(m)` in state `sm` is one in which the message is ignored
by the active behavior or the handler returns an empty optional. On the
single-type form every message reaches the handler, so there it is the second
case only. -/
def Quiet : (d : InternalStateMachine MTy MVal Ctx) → StateMachine d → (M : MTy) → MVal M → Prop
  | ⟨.variant _ _ decl _ _, prereceive, _, _⟩, ⟨⟨b, behavior⟩, _self⟩, M, m =>
    ignoredBy (decl b).IgnoredMessage M ∨
      ((decl b).receive behavior (prereceive _self) M m).2 = none
  | ⟨.single _ _ receive _, prereceive, _, _⟩, ⟨_behavior, _self⟩, M, m =>
    (receive _behavior (prereceive _self) M m).2 = none

/-- Every call of the sequence, made in the state the calls before it left,
is `Quiet`. -/
def QuietRun (d : InternalStateMachine MTy MVal Ctx) :
    StateMachine d → List (AnyMessage MTy MVal) → Prop
  | _, [] => True
  | sm, m :: ms => Quiet d sm m.1 m.2 ∧ QuietRun d (StateMachine.receive d sm m.1 m.2) ms

instance Quiet.decidable : (d : InternalStateMachine MTy MVal Ctx) → (sm : StateMachine d) →
    (M : MTy) → (m : MVal M) → Decidable (Quiet d sm M m)
  | ⟨.variant _ _ decl _ _, prereceive, _, _⟩, ⟨⟨b, behavior⟩, _self⟩, M, m =>
    @instDecidableOr (ignoredBy (decl b).IgnoredMessage M)
      (((decl b).receive behavior (prereceive _self) M m).2 = none) _
      Option.decidable_eq_none
  | ⟨.single _ _ receive _, prereceive, _, _⟩, ⟨_behavior, _self⟩, M, m =>
    @Option.decidable_eq_none _ (receive _behavior (prereceive _self) M m).2

instance QuietRun.decidable (d : InternalStateMachine MTy MVal Ctx) :
    (sm : StateMachine d) → (ms : List (AnyMessage MTy MVal)) → Decidable (QuietRun d sm ms)
  | _, [] => instDecidableTrue
  | sm, m :: ms =>
    @instDecidableAnd (Quiet d sm m.1 m.2)
      (QuietRun d (StateMachine.receive d sm m.1 m.2) ms) _
      (QuietRun.decidable d (StateMachine.receive d sm m.1 m.2) ms)

/-- The machine whose `Behavior` is the `std::variant` with the one member
that a single-type machine has as its `Behavior`, with the same
`IgnoredMessage`, `NextBehavior`, handler, hooks and context. -/
def InternalStateMachine.oneMemberVariant :
    InternalStateMachine MTy MVal Ctx → InternalStateMachine MTy MVal Ctx
  | ⟨.single B IgnoredMessage receive initial, prereceive, postreceive, defaultSelf⟩ =>
    ⟨.variant Unit (fun _ => B) (fun _ => ⟨IgnoredMessage, .single (), receive⟩) () initial,
      prereceive, postreceive, defaultSelf⟩
  | d => d

/-- The active behaviors an instance passes through: the value of `_behavior`
after each of the successive calls `receive(m1); receive(m2); ...`. -/
def StateMachine.behaviors (d : InternalStateMachine MTy MVal Ctx) :
    StateMachine d → List (AnyMessage MTy MVal) → List d.form.Behavior
  | _, [] => []
  | sm, m :: ms =>
    (StateMachine.receive d sm m.1 m.2)._behavior ::
      StateMachine.behaviors d (StateMachine.receive d sm m.1 m.2) ms

/-! ## Observing handler calls

The wrapper is left as it is; the user code is made to leave a trace. The
context gets a second component, which the hooks do not touch and to which
every handler adds an entry when it is called. -/

/-- A hook on a context that carries a trace besides: the trace is left alone. -/
def onContext {L : Type} (hook : Ctx → Ctx) : Ctx × L → Ctx × L :=
  fun self => (hook self.1, self.2)

/-- The handler `recv` of a single-type machine, also counting its calls. -/
def countingHandler {B : Type} (recv : B → Ctx → (M : MTy) → MVal M → Ctx × Option B) :
    B → Ctx × Nat → (M : MTy) → MVal M → (Ctx × Nat) × Option B :=
  fun behavior self M m =>
    (((recv behavior self.1 M m).1, self.2 + 1), (recv behavior self.1 M m).2)

/-! ## Dereferencing the returned optional

`*newBehavior` has a value only on a non-empty optional. In this embedding of
lines 27-71 it is an operation that can fail, so that `receive` has an error
outcome wherever the source dereferences. -/

/-- What can go wrong inside `receive`. -/
inductive ReceiveError where
  /-- `operator*` on an empty `std::optional`. -/
  | emptyOptional
  deriving DecidableEq

/-- The dereference `*newBehavior` of a `std::optional`. -/
def Checked.deref {α : Type} : Option α → Except ReceiveError α
  | some a => .ok a
  | none => .error .emptyOptional

/-- The member function `receive` (lines 27-71) with `if (newBehavior)` and
`*newBehavior` as the two separate steps they are in the source. -/
def Checked.receive : (d : InternalStateMachine MTy MVal Ctx) →
    StateMachine d → (M : MTy) → MVal M → Except ReceiveError (StateMachine d)
  | ⟨.variant _ _ decl _ _, prereceive, postreceive, _⟩, ⟨⟨b, behavior⟩, _self⟩, M, m =>
    let _self := prereceive _self
    if handlerEnabled (decl b).IgnoredMessage M then
      let r := (decl b).receive behavior _self M m
      let newBehavior := r.2
      if newBehavior.isSome then
        (Checked.deref newBehavior).map fun newB =>
          ⟨assignNext (decl b).NextBehavior newB, postreceive r.1⟩
      else
        .ok ⟨⟨b, behavior⟩, postreceive r.1⟩
    else
      .ok ⟨⟨b, behavior⟩, postreceive _self⟩
  | ⟨.single _ _ receive _, prereceive, postreceive, _⟩, ⟨_behavior, _self⟩, M, m =>
    let _self := prereceive _self
    let r := receive _behavior _self M m
    let newBehavior := r.2
    if newBehavior.isSome then
      (Checked.deref newBehavior).map fun newB => ⟨newB, postreceive r.1⟩
    else
      .ok ⟨_behavior, postreceive r.1⟩

/-! ## Calls of `receive` from inside `receive`

`receive`, `_behavior` and `_self` are public members, so user code (a handler
or a hook) that holds a pointer to the wrapper can call `receive` on the
instance that is running it. In this second embedding of lines 27-71 the user
code is handed that `receive` and works on both data members. The nesting
depth is bounded by a fuel argument; `none` stands for running out of it. -/

/-- The two data members (lines 73-74) of a wrapper whose `Behavior` is a
`std::variant`. -/
structure Instance (BTy : Type) (BVal : BTy → Type) (Ctx : Type) where
  _behavior : (t : BTy) × BVal t
  _self : Ctx

/-- The member function `receive` of the owning instance, as user code calls it. -/
abbrev NestedReceive (MTy : Type) (MVal : MTy → Type) (Ctx BTy : Type) (BVal : BTy → Type) :
    Type :=
  (M : MTy) → MVal M → Instance BTy BVal Ctx → Option (Instance BTy BVal Ctx)

/-- What a state type declares, its handler being user code that may call
`receive` on the owning instance. -/
structure ReentrantDecl (MTy : Type) (MVal : MTy → Type) (Ctx BTy : Type) (BVal : BTy → Type)
    (b : BTy) where
  IgnoredMessage : Shape MTy
  NextBehavior : Shape BTy
  receive : NestedReceive MTy MVal Ctx BTy BVal → BVal b → (M : MTy) → MVal M →
    Instance BTy BVal Ctx → Option (Instance BTy BVal Ctx × Option (NextVal BVal NextBehavior))

/-- The user's class with a variant `Behavior`, its handlers and hooks being
user code that may call `receive` on the owning instance. -/
structure ReentrantMachine (MTy : Type) (MVal : MTy → Type) (Ctx BTy : Type)
    (BVal : BTy → Type) where
  decl : (b : BTy) → ReentrantDecl MTy MVal Ctx BTy BVal b
  prereceive : NestedReceive MTy MVal Ctx BTy BVal → Instance BTy BVal Ctx →
    Option (Instance BTy BVal Ctx)
  postreceive : NestedReceive MTy MVal Ctx BTy BVal → Instance BTy BVal Ctx →
    Option (Instance BTy BVal Ctx)

/-- The member function `receive` (lines 27-71, variant branch) with user code
that may call it again on the same instance. -/
def Reentrant.receive {BTy : Type} {BVal : BTy → Type}
    (d : ReentrantMachine MTy MVal Ctx BTy BVal) :
    Nat → NestedReceive MTy MVal Ctx BTy BVal
  | 0, _, _, _ => none
  | fuel + 1, M, m, inst =>
    (d.prereceive (Reentrant.receive d fuel) inst).bind fun inst =>
    let b := inst._behavior.1
    let behavior := inst._behavior.2
    if handlerEnabled (d.decl b).IgnoredMessage M then
      ((d.decl b).receive (Reentrant.receive d fuel) behavior M m inst).bind fun r =>
      match r with
      | (inst, some newBehavior) =>
        d.postreceive (Reentrant.receive d fuel)
          ⟨assignNext (d.decl b).NextBehavior newBehavior, inst._self⟩
      | (inst, none) => d.postreceive (Reentrant.receive d fuel) inst
    else
      d.postreceive (Reentrant.receive d fuel) inst

/-- A handler of the first embedding as user code of the second: it works on
`_self` and makes no nested call. -/
def Reentrant.plainHandler {BTy : Type} {BVal : BTy → Type} {b : BTy}
    (decl : BehaviorDecl MTy MVal Ctx BTy BVal b) :
    NestedReceive MTy MVal Ctx BTy BVal → BVal b → (M : MTy) → MVal M →
      Instance BTy BVal Ctx →
      Option (Instance BTy BVal Ctx × Option (NextVal BVal decl.NextBehavior)) :=
  fun _ behavior M m inst =>
    some (⟨inst._behavior, (decl.receive behavior inst._self M m).1⟩,
      (decl.receive behavior inst._self M m).2)

/-- The machine with the declarations `decl` and the hooks `prereceive`,
`postreceive` of the first embedding, except that the handler of the state
type `b₀`, when it gets a message of type `M₀`, first calls `receive(m₂)` on
the owning instance and then goes on as declared, with the state object it
was called on and the context the nested call left. -/
def Reentrant.reentering {BTy : Type} [DecidableEq BTy] {BVal : BTy → Type}
    (decl : (b : BTy) → BehaviorDecl MTy MVal Ctx BTy BVal b)
    (prereceive postreceive : Ctx → Ctx) (b₀ : BTy) (M₀ : MTy) (M₂ : MTy) (m₂ : MVal M₂) :
    ReentrantMachine MTy MVal Ctx BTy BVal where
  decl := fun b =>
    ⟨(decl b).IgnoredMessage, (decl b).NextBehavior, fun nested behavior M m inst =>
      if b = b₀ ∧ M = M₀ then
        (nested M₂ m₂ inst).bind fun inst => Reentrant.plainHandler (decl b) nested behavior M m inst
      else
        Reentrant.plainHandler (decl b) nested behavior M m inst⟩
  prereceive := fun _ inst => some ⟨inst._behavior, prereceive inst._self⟩
  postreceive := fun _ inst => some ⟨inst._behavior, postreceive inst._self⟩

/-! ## Example machines -/

/-- What a hook or a handler appends to the context of the example machines. -/
inductive Event where
  | prereceive
  | handler
  | postreceive
  deriving DecidableEq

namespace Turnstile

/-- The message types. -/
inductive Message where
  | Coin
  | Push
  deriving DecidableEq

/-- The state types. -/
inductive State where
  | Locked
  | Unlocked
  deriving DecidableEq

/-- Handler of `Locked`: `Coin` gives `Unlocked`. `Push` is declared ignored;
`other` stands for whatever an overload for it would return. -/
def lockedReceive (other : Option Unit) :
    Unit → List Event → (M : Message) → Unit → List Event × Option Unit
  | _, self, .Coin, _ => (self ++ [Event.handler], some ())
  | _, self, .Push, _ => (self ++ [Event.handler], other)

/-- Handler of `Unlocked`: `Push` gives `Locked`. `Coin` is declared ignored;
`other` stands for whatever an overload for it would return. -/
def unlockedReceive (other : Option Unit) :
    Unit → List Event → (M : Message) → Unit → List Event × Option Unit
  | _, self, .Push, _ => (self ++ [Event.handler], some ())
  | _, self, .Coin, _ => (self ++ [Event.handler], other)

/-- The declarations of the two state types. -/
def decl (other : Option Unit) :
    (b : State) → BehaviorDecl Message (fun _ => Unit) (List Event) State (fun _ => Unit) b
  | .Locked => ⟨.single .Push, .single .Unlocked, lockedReceive other⟩
  | .Unlocked => ⟨.single .Coin, .single .Locked, unlockedReceive other⟩

/-- The turnstile: `Behavior = std::variant<Locked, Unlocked>`,
`Message = std::variant<Coin, Push>`, `InitialBehavior = Locked`; the hooks
log their calls in the context. -/
def machine (other : Option Unit) : InternalStateMachine Message (fun _ => Unit) (List Event) :=
  ⟨.variant State (fun _ => Unit) (decl other) .Locked (),
    fun self => self ++ [Event.prereceive], fun self => self ++ [Event.postreceive], []⟩

/-- Declarations that differ from those of the turnstile only in `Unlocked`:
here `Unlocked` ignores `Push` and goes to `Unlocked` on every message. -/
def jammedDecl :
    (b : State) → BehaviorDecl Message (fun _ => Unit) (List Event) State (fun _ => Unit) b
  | .Locked => ⟨.single .Push, .single .Unlocked, lockedReceive none⟩
  | .Unlocked => ⟨.single .Push, .single .Unlocked, fun _ self _ _ => (self, some ())⟩

/-- The turnstile whose handler of `Locked`, when it gets a `Coin`, first
calls `receive(Push{})` on the turnstile it belongs to. -/
def reentrantMachine :
    ReentrantMachine Message (fun _ => Unit) (List Event) State (fun _ => Unit) :=
  Reentrant.reentering (decl none) (fun self => self ++ [Event.prereceive])
    (fun self => self ++ [Event.postreceive]) .Locked .Coin .Push ()

end Turnstile

namespace Counter

/-- Handler of the one state type, a counter: every message, `Push` included,
gives the counter plus one. -/
def receive : Nat → List Event → (M : Turnstile.Message) → Unit → List Event × Option Nat
  | n, self, _, _ => (self ++ [Event.handler], some (n + 1))

/-- A machine whose `Behavior` is the single state type `Counter`, which
declares `IgnoredMessage = Push`. -/
def machine : InternalStateMachine Turnstile.Message (fun _ => Unit) (List Event) :=
  ⟨.single Nat (.single .Push) receive 0,
    fun self => self ++ [Event.prereceive], fun self => self ++ [Event.postreceive], []⟩

end Counter

namespace Fork

/-- The state types; each state object carries a number. -/
inductive State where
  | Start
  | Left
  | Right
  deriving DecidableEq

/-- The data of a message: a `Coin` says which way to go, a `Push` has none. -/
def Data : Turnstile.Message → Type
  | .Coin => Bool
  | .Push => Unit

/-- Handler of `Start`, with `NextBehavior = std::variant<Left, Right>`: a
`Coin` gives `Left` or `Right` as it says, carrying on the number of `Start`.
`Push` is declared ignored. -/
def startReceive : Nat → List Event → (M : Turnstile.Message) → Data M →
    List Event × Option (NextVal (fun _ : State => Nat) (.variant [.Left, .Right]))
  | n, self, .Coin, true => (self ++ [Event.handler], some ⟨⟨.Left, by simp⟩, n⟩)
  | n, self, .Coin, false => (self ++ [Event.handler], some ⟨⟨.Right, by simp⟩, n⟩)
  | _, self, .Push, _ => (self ++ [Event.handler], none)

/-- Handler of `Left` and of `Right`: stay. -/
def stay : Nat → List Event → (M : Turnstile.Message) → Data M → List Event × Option Nat
  | _, self, _, _ => (self ++ [Event.handler], none)

/-- The declarations of the three state types. -/
def decl : (b : State) → BehaviorDecl Turnstile.Message Data (List Event) State (fun _ => Nat) b
  | .Start => ⟨.single .Push, .variant [.Left, .Right], startReceive⟩
  | .Left => ⟨.single .Coin, .single .Start, stay⟩
  | .Right => ⟨.single .Coin, .single .Start, stay⟩

/-- A machine with a nested transition. -/
def machine : InternalStateMachine Turnstile.Message Data (List Event) :=
  ⟨.variant State (fun _ => Nat) decl .Start 0,
    fun self => self ++ [Event.prereceive], fun self => self ++ [Event.postreceive], []⟩

end Fork

/-! ## Evaluation lemmas -/

theorem handlerEnabled_eq_false_iff {T : Type} [DecidableEq T] (ig : Shape T) (M : T) :
    handlerEnabled ig M = false ↔ ignoredBy ig M := by
  cases ig with
  | single t =>
    simp only [handlerEnabled, detail.isVariant, is_same, ignoredBy]
    constructor
    · intro h
      by_contra hne
      have hne2 : ¬ t = M := fun e => hne e.symm
      simp [hne2] at h
    · intro h; simp [h]
  | variant ts => simp [handlerEnabled, detail.isVariant, is_constructible, ignoredBy]

theorem handlerEnabled_eq_true_iff {T : Type} [DecidableEq T] (ig : Shape T) (M : T) :
    handlerEnabled ig M = true ↔ ¬ ignoredBy ig M := by
  rw [← handlerEnabled_eq_false_iff]; simp

section Variant

variable (BTy : Type) (BVal : BTy → Type)
  (decl : (b : BTy) → BehaviorDecl MTy MVal Ctx BTy BVal b)
  (InitialBehavior : BTy) (initial : BVal InitialBehavior)
  (prereceive postreceive : Ctx → Ctx) (defaultSelf : Ctx)

theorem receive_variant_ignored (b : BTy) (behavior : BVal b) (self : Ctx) (M : MTy)
    (m : MVal M) (hig : ignoredBy (decl b).IgnoredMessage M) :
    StateMachine.receive
        ⟨.variant BTy BVal decl InitialBehavior initial, prereceive, postreceive, defaultSelf⟩
        ⟨⟨b, behavior⟩, self⟩ M m
      = ⟨⟨b, behavior⟩, postreceive (prereceive self)⟩ := by
  have h := (handlerEnabled_eq_false_iff _ _).2 hig
  simp [StateMachine.receive, h]

theorem receive_variant_handled (b : BTy) (behavior : BVal b) (self : Ctx) (M : MTy)
    (m : MVal M) (hig : ¬ ignoredBy (decl b).IgnoredMessage M) :
    StateMachine.receive
        ⟨.variant BTy BVal decl InitialBehavior initial, prereceive, postreceive, defaultSelf⟩
        ⟨⟨b, behavior⟩, self⟩ M m
      = ⟨((((decl b).receive behavior (prereceive self) M m).2).map
            (assignNext (decl b).NextBehavior)).getD ⟨b, behavior⟩,
         postreceive ((decl b).receive behavior (prereceive self) M m).1⟩ := by
  have h := (handlerEnabled_eq_true_iff _ _).2 hig
  simp only [StateMachine.receive, h, if_true]
  rcases hr : (decl b).receive behavior (prereceive self) M m with ⟨c, _ | nb⟩ <;> rfl

end Variant

theorem receive_single (B : Type) (ig : Shape MTy)
    (recv : B → Ctx → (M : MTy) → MVal M → Ctx × Option B) (initial : B)
    (prereceive postreceive : Ctx → Ctx) (defaultSelf : Ctx)
    (behavior : B) (self : Ctx) (M : MTy) (m : MVal M) :
    StateMachine.receive ⟨.single B ig recv initial, prereceive, postreceive, defaultSelf⟩
        ⟨behavior, self⟩ M m
      = ⟨((recv behavior (prereceive self) M m).2).getD behavior,
         postreceive (recv behavior (prereceive self) M m).1⟩ := by
  simp only [StateMachine.receive]
  rcases hr : recv behavior (prereceive self) M m with ⟨c, _ | nb⟩ <;> rfl

theorem receiveAll_eq_foldl (d : InternalStateMachine MTy MVal Ctx)
    (ms : List (AnyMessage MTy MVal)) (sm : StateMachine d) :
    StateMachine.receiveAll d sm ms
      = ms.foldl (fun s m => StateMachine.receive d s m.1 m.2) sm := by
  induction ms generalizing sm with
  | nil => rfl
  | cons a ms ih => simp only [StateMachine.receiveAll, List.foldl_cons, ih]

theorem receiveAll_append (d : InternalStateMachine MTy MVal Ctx)
    (ms ns : List (AnyMessage MTy MVal)) (sm : StateMachine d) :
    StateMachine.receiveAll d sm (ms ++ ns)
      = StateMachine.receiveAll d (StateMachine.receiveAll d sm ms) ns := by
  induction ms generalizing sm with
  | nil => rfl
  | cons a ms ih =>
    show StateMachine.receiveAll d (StateMachine.receive d sm a.1 a.2) (ms ++ ns) = _
    rw [ih]
    rfl

theorem behaviors_length (d : InternalStateMachine MTy MVal Ctx)
    (ms : List (AnyMessage MTy MVal)) (sm : StateMachine d) :
    (StateMachine.behaviors d sm ms).length = ms.length := by
  induction ms generalizing sm with
  | nil => rfl
  | cons a ms ih => simp only [StateMachine.behaviors, List.length_cons, ih]

theorem behaviors_get? (d : InternalStateMachine MTy MVal Ctx)
    (ms : List (AnyMessage MTy MVal)) (sm : StateMachine d) (k : Nat) (hk : k < ms.length) :
    (StateMachine.behaviors d sm ms)[k]?
      = some (StateMachine.receiveAll d sm (ms.take (k + 1)))._behavior := by
  induction ms generalizing sm k with
  | nil => simp at hk
  | cons a ms ih =>
    cases k with
    | zero => simp [StateMachine.behaviors, StateMachine.receiveAll]
    | succ k =>
      have hk2 : k < ms.length := by simpa using hk
      simp only [StateMachine.behaviors, List.getElem?_cons_succ, List.take_succ_cons,
        StateMachine.receiveAll]
      exact ih _ k hk2

theorem Checked.receive_eq_ok (d : InternalStateMachine MTy MVal Ctx) (sm : StateMachine d)
    (M : MTy) (m : MVal M) :
    Checked.receive d sm M m = .ok (StateMachine.receive d sm M m) := by
  rcases d with ⟨form, pre, post, dflt⟩
  cases form with
  | single B ig recv initial =>
    rcases sm with ⟨behavior, self⟩
    simp only [Checked.receive, StateMachine.receive]
    rcases hr : recv behavior (pre self) M m with ⟨c, _ | nb⟩ <;>
      simp [Checked.deref, Except.map]
  | variant BTy BVal decl ib i0 =>
    rcases sm with ⟨⟨b, behavior⟩, self⟩
    simp only [Checked.receive, StateMachine.receive]
    by_cases hen : handlerEnabled (decl b).IgnoredMessage M = true
    · simp only [hen, if_true]
      rcases hr : (decl b).receive behavior (pre self) M m with ⟨c, _ | nb⟩ <;>
        simp [Checked.deref, Except.map]
    · simp [hen]

/-- C2, transition invariant. When the active behavior `b` declares a single
state type `t` as `NextBehavior`, the message is not ignored by `b`, and the
handler of `b` (called on the context that `prereceive` left) returns a
non-empty optional holding `V`, then after `receive` the active behavior is
`V`, held as the alternative `t` of the top-level `Behavior`. On the
single-type form the active behavior is `V` whenever the handler returns `V`. -/
theorem transition_invariant :
    (∀ (BTy : Type) (BVal : BTy → Type)
        (decl : (b : BTy) → BehaviorDecl MTy MVal Ctx BTy BVal b)
        (InitialBehavior : BTy) (initial : BVal InitialBehavior)
        (prereceive postreceive : Ctx → Ctx) (defaultSelf : Ctx)
        (b : BTy) (behavior : BVal b) (self : Ctx) (M : MTy) (m : MVal M)
        (ig : Shape MTy) (t : BTy)
        (h : BVal b → Ctx → (M : MTy) → MVal M → Ctx × Option (BVal t))
        (self' : Ctx) (V : BVal t),
        decl b = ⟨ig, .single t, h⟩ →
        ¬ ignoredBy ig M →
        h behavior (prereceive self) M m = (self', some V) →
        (StateMachine.receive
          ⟨.variant BTy BVal decl InitialBehavior initial, prereceive, postreceive, defaultSelf⟩
          ⟨⟨b, behavior⟩, self⟩ M m)._behavior = ⟨t, V⟩) ∧
    (∀ (B : Type) (ig : Shape MTy) (recv : B → Ctx → (M : MTy) → MVal M → Ctx × Option B)
        (initial : B) (prereceive postreceive : Ctx → Ctx) (defaultSelf : Ctx)
        (behavior : B) (self : Ctx) (M : MTy) (m : MVal M) (self' : Ctx) (V : B),
        recv behavior (prereceive self) M m = (self', some V) →
        (StateMachine.receive
          ⟨.single B ig recv initial, prereceive, postreceive, defaultSelf⟩
          ⟨behavior, self⟩ M m)._behavior = V) := by
  refine ⟨?_, ?_⟩
  · intro BTy BVal decl ib i0 pre post dflt b behavior self M m ig t h self' V hdecl hni hret
    have hni' : ¬ ignoredBy (decl b).IgnoredMessage M := by rw [hdecl]; exact hni
    rw [receive_variant_handled BTy BVal decl ib i0 pre post dflt b behavior self M m hni']
    dsimp only
    rw [hdecl]
    simp [hret, assignNext]
  · intro B ig recv initial pre post dflt behavior self M m self' V hret
    rw [receive_single, hret]
    rfl

/-- Witness of C2 on the turnstile: `Locked` receives `Coin`. -/
theorem transition_invariant_witness :
    (StateMachine.receive (Turnstile.machine none) ⟨⟨.Locked, ()⟩, []⟩ .Coin ())._behavior
      = ⟨.Unlocked, ()⟩ :=
  transition_invariant.1 Turnstile.State (fun _ => Unit) (Turnstile.decl none) .Locked ()
    (fun self => self ++ [Event.prereceive]) (fun self => self ++ [Event.postreceive]) []
    .Locked () [] .Coin () (.single .Push) .Unlocked (Turnstile.lockedReceive none)
    [Event.prereceive, Event.handler] () rfl (by decide) rfl

/-- C3, nested transition. When the active behavior `b` declares the closed
set `ts` as `NextBehavior`, the message is not ignored by `b`, and the handler
of `b` returns a value of that set whose active member is the state object `x`
of type `X`, then after `receive` the active top-level behavior is `x` itself,
held directly as the alternative `X`; this for every member `X` of `ts`. -/
theorem nested_transition
    (BTy : Type) (BVal : BTy → Type)
    (decl : (b : BTy) → BehaviorDecl MTy MVal Ctx BTy BVal b)
    (InitialBehavior : BTy) (initial : BVal InitialBehavior)
    (prereceive postreceive : Ctx → Ctx) (defaultSelf : Ctx)
    (b : BTy) (behavior : BVal b) (self : Ctx) (M : MTy) (m : MVal M)
    (ig : Shape MTy) (ts : List BTy)
    (h : BVal b → Ctx → (M : MTy) → MVal M → Ctx × Option (NextVal BVal (.variant ts)))
    (self' : Ctx) (X : BTy) (hX : X ∈ ts) (x : BVal X)
    (hdecl : decl b = ⟨ig, .variant ts, h⟩)
    (hni : ¬ ignoredBy ig M)
    (hret : h behavior (prereceive self) M m = (self', some ⟨⟨X, hX⟩, x⟩)) :
    (StateMachine.receive
      ⟨.variant BTy BVal decl InitialBehavior initial, prereceive, postreceive, defaultSelf⟩
      ⟨⟨b, behavior⟩, self⟩ M m)._behavior = ⟨X, x⟩ := by
  have hni' : ¬ ignoredBy (decl b).IgnoredMessage M := by rw [hdecl]; exact hni
  rw [receive_variant_handled BTy BVal decl InitialBehavior initial prereceive postreceive
    defaultSelf b behavior self M m hni']
  dsimp only
  rw [hdecl]
  simp [hret, assignNext]

/-- Witness of C3 on the fork machine: `Start`, holding 7, receives a `Coin`
that says to go right. -/
theorem nested_transition_witness :
    (StateMachine.receive Fork.machine ⟨⟨.Start, (7 : Nat)⟩, []⟩ .Coin false)._behavior
      = ⟨.Right, (7 : Nat)⟩ :=
  nested_transition Fork.State (fun _ => Nat) Fork.decl .Start 0
    (fun self => self ++ [Event.prereceive]) (fun self => self ++ [Event.postreceive]) []
    .Start 7 [] .Coin false (.single .Push) [.Left, .Right] Fork.startReceive
    [Event.prereceive, Event.handler] .Right (by simp) 7 rfl (by decide) rfl

/-- C5, hook invariant. One call to `receive` applies `prereceive` once,
first, and `postreceive` once, last, in every outcome. On the variant form:
when the message is ignored by the active behavior no handler runs and the
final context is `postreceive (prereceive self)`; otherwise the handler is
called on `prereceive self` and the final context is `postreceive` of the
context the handler left, whether it returned a behavior or nothing. On the
single-type form the handler is called on `prereceive self` and the final
context is `postreceive` of the context it left. -/
theorem hook_invariant :
    (∀ (BTy : Type) (BVal : BTy → Type)
        (decl : (b : BTy) → BehaviorDecl MTy MVal Ctx BTy BVal b)
        (InitialBehavior : BTy) (initial : BVal InitialBehavior)
        (prereceive postreceive : Ctx → Ctx) (defaultSelf : Ctx)
        (b : BTy) (behavior : BVal b) (self : Ctx) (M : MTy) (m : MVal M),
        (StateMachine.receive
          ⟨.variant BTy BVal decl InitialBehavior initial, prereceive, postreceive, defaultSelf⟩
          ⟨⟨b, behavior⟩, self⟩ M m)._self
        = postreceive
            (if ignoredBy (decl b).IgnoredMessage M then prereceive self
             else ((decl b).receive behavior (prereceive self) M m).1)) ∧
    (∀ (B : Type) (ig : Shape MTy) (recv : B → Ctx → (M : MTy) → MVal M → Ctx × Option B)
        (initial : B) (prereceive postreceive : Ctx → Ctx) (defaultSelf : Ctx)
        (behavior : B) (self : Ctx) (M : MTy) (m : MVal M),
        (StateMachine.receive
          ⟨.single B ig recv initial, prereceive, postreceive, defaultSelf⟩
          ⟨behavior, self⟩ M m)._self
        = postreceive (recv behavior (prereceive self) M m).1) := by
  refine ⟨?_, ?_⟩
  · intro BTy BVal decl ib i0 pre post dflt b behavior self M m
    by_cases hig : ignoredBy (decl b).IgnoredMessage M
    · rw [receive_variant_ignored BTy BVal decl ib i0 pre post dflt b behavior self M m hig]
      simp [hig]
    · rw [receive_variant_handled BTy BVal decl ib i0 pre post dflt b behavior self M m hig]
      simp [hig]
  · intro B ig recv initial pre post dflt behavior self M m
    rw [receive_single]

/-- C7, turnstile scenario. From a newly constructed turnstile (initial
behavior `Locked`), the calls `receive(Push)`, `receive(Coin)`,
`receive(Coin)`, `receive(Push)` leave the active behavior `Locked`,
`Unlocked`, `Unlocked`, `Locked`; whatever a handler would return for the
message its state ignores. -/
theorem turnstile_scenario (other : Option Unit) :
    (StateMachine.construct (Turnstile.machine other))._behavior = ⟨.Locked, ()⟩ ∧
    (StateMachine.receive (Turnstile.machine other)
      (StateMachine.construct (Turnstile.machine other)) .Push ())._behavior
        = ⟨.Locked, ()⟩ ∧
    (StateMachine.receive (Turnstile.machine other)
      (StateMachine.receive (Turnstile.machine other)
        (StateMachine.construct (Turnstile.machine other)) .Push ()) .Coin ())._behavior
        = ⟨.Unlocked, ()⟩ ∧
    (StateMachine.receive (Turnstile.machine other)
      (StateMachine.receive (Turnstile.machine other)
        (StateMachine.receive (Turnstile.machine other)
          (StateMachine.construct (Turnstile.machine other)) .Push ()) .Coin ())
        .Coin ())._behavior
        = ⟨.Unlocked, ()⟩ ∧
    (StateMachine.receive (Turnstile.machine other)
      (StateMachine.receive (Turnstile.machine other)
        (StateMachine.receive (Turnstile.machine other)
          (StateMachine.receive (Turnstile.machine other)
            (StateMachine.construct (Turnstile.machine other)) .Push ()) .Coin ())
          .Coin ()) .Push ())._behavior
        = ⟨.Locked, ()⟩ :=
  ⟨rfl, rfl, rfl, rfl, rfl⟩

/-- C10, initial state. A newly constructed `StateMachine` holds the
default-constructed `InitialBehavior` as that alternative of `Behavior` (as
the state object itself on the single-type form) and the default-constructed
context. -/
theorem construct_initial {MTy : Type} {MVal : MTy → Type} {Ctx : Type} :
    (∀ (BTy : Type) (BVal : BTy → Type)
        (decl : (b : BTy) → BehaviorDecl MTy MVal Ctx BTy BVal b)
        (InitialBehavior : BTy) (initial : BVal InitialBehavior)
        (prereceive postreceive : Ctx → Ctx) (defaultSelf : Ctx),
        StateMachine.construct
          (⟨.variant BTy BVal decl InitialBehavior initial, prereceive, postreceive,
            defaultSelf⟩ : InternalStateMachine MTy MVal Ctx)
        = ⟨⟨InitialBehavior, initial⟩, defaultSelf⟩) ∧
    (∀ (B : Type) (ig : Shape MTy) (recv : B → Ctx → (M : MTy) → MVal M → Ctx × Option B)
        (initial : B) (prereceive postreceive : Ctx → Ctx) (defaultSelf : Ctx),
        StateMachine.construct
          (⟨.single B ig recv initial, prereceive, postreceive, defaultSelf⟩ :
            InternalStateMachine MTy MVal Ctx)
        = ⟨initial, defaultSelf⟩) :=
  ⟨fun _ _ _ _ _ _ _ _ => rfl, fun _ _ _ _ _ _ _ => rfl⟩

/-- C1, ignore invariant, at the input where the code departs from it: the
single-type machine `Counter` declares `IgnoredMessage = Push`, yet
`receive(Push{})` calls its handler: the counter goes from 0 to 1 and the
context records the handler call between the two hooks, where the invariant
asks for the counter 0 and the context `postreceive (prereceive [])`. -/
theorem ignore_invariant_single_form_evaluated :
    Counter.machine.form = .single Nat (.single .Push) Counter.receive 0 ∧
    ignoredBy (Shape.single Turnstile.Message.Push) Turnstile.Message.Push ∧
    StateMachine.receive Counter.machine ⟨(0 : Nat), []⟩ .Push ()
      = ⟨(1 : Nat), [Event.prereceive, Event.handler, Event.postreceive]⟩ ∧
    StateMachine.receive Counter.machine ⟨(0 : Nat), []⟩ .Push ()
      ≠ ⟨(0 : Nat), Counter.machine.postreceive (Counter.machine.prereceive [])⟩ := by
  refine ⟨rfl, rfl, rfl, ?_⟩
  intro h
  have h2 : (1 : Nat) = 0 := congrArg StateMachine._behavior h
  exact absurd h2 (by decide)

/-- On a message that is not ignored, a single-type machine and the machine
with the one-member variant do the same. -/
theorem oneMemberVariant_receive_of_not_ignored
    (B : Type) (ig : Shape MTy) (recv : B → Ctx → (M : MTy) → MVal M → Ctx × Option B)
    (initial : B) (prereceive postreceive : Ctx → Ctx) (defaultSelf : Ctx)
    (behavior : B) (self : Ctx) (M : MTy) (m : MVal M) (hni : ¬ ignoredBy ig M) :
    let d : InternalStateMachine MTy MVal Ctx :=
      ⟨.single B ig recv initial, prereceive, postreceive, defaultSelf⟩
    (StateMachine.receive d.oneMemberVariant ⟨⟨(), behavior⟩, self⟩ M m)._behavior
        = ⟨(), (StateMachine.receive d ⟨behavior, self⟩ M m)._behavior⟩ ∧
      (StateMachine.receive d.oneMemberVariant ⟨⟨(), behavior⟩, self⟩ M m)._self
        = (StateMachine.receive d ⟨behavior, self⟩ M m)._self := by
  intro d
  have h1 := receive_variant_handled Unit (fun _ => B) (fun _ => ⟨ig, .single (), recv⟩) ()
    initial prereceive postreceive defaultSelf () behavior self M m hni
  have h2 := receive_single B ig recv initial prereceive postreceive defaultSelf behavior self M m
  simp only [d, InternalStateMachine.oneMemberVariant]
  rw [h1, h2]
  rcases hr : recv behavior (prereceive self) M m with ⟨c, _ | nb⟩ <;> simp [assignNext, hr]

/-- C6, shape uniformity, at the input where the code departs from it: on
`receive(Push{})`, which `Counter` declares ignored, the single-type machine
calls the handler (counter 1, handler call in the context) while the machine
with the one-member variant `std::variant<Counter>` skips it (counter 0, hooks
only). -/
theorem shape_uniformity_evaluated :
    StateMachine.receive Counter.machine ⟨(0 : Nat), []⟩ .Push ()
      = ⟨(1 : Nat), [Event.prereceive, Event.handler, Event.postreceive]⟩ ∧
    StateMachine.receive Counter.machine.oneMemberVariant ⟨⟨(), (0 : Nat)⟩, []⟩ .Push ()
      = ⟨⟨(), (0 : Nat)⟩, [Event.prereceive, Event.postreceive]⟩ :=
  ⟨rfl, rfl⟩

/-- C8 as stated fails: the handler of `Locked` calls `receive(Push{})` on its
own turnstile while `receive(Coin{})` is running. The nested call, made on the
instance as `prereceive` left it, returns normally having run both hooks, and
the outer call then completes: nothing is detected or reported. -/
theorem nested_receive_not_detected :
    Reentrant.receive Turnstile.reentrantMachine 1 .Push () ⟨⟨.Locked, ()⟩, [Event.prereceive]⟩
      = some ⟨⟨.Locked, ()⟩, [Event.prereceive, Event.prereceive, Event.postreceive]⟩ ∧
    Reentrant.receive Turnstile.reentrantMachine 2 .Coin () ⟨⟨.Locked, ()⟩, []⟩
      = some ⟨⟨.Unlocked, ()⟩, [Event.prereceive, Event.prereceive, Event.postreceive,
          Event.handler, Event.postreceive]⟩ :=
  ⟨rfl, rfl⟩

/-- C8 as amended: `receive` has no reentrancy check. When the handler of the
active behavior `b₀`, handling a message of type `M₀`, calls `receive(m₂)` on
its own instance (with `M₂` another message type, so that the nested call does
not nest again), the nested call returns the result of an ordinary `receive`
on the two data members as they are at that moment, and the outer call then
completes with the handler run on the context the nested call left: no error
is reported to either caller. -/
theorem nested_receive_runs_as_ordinary_call
    {BTy : Type} [DecidableEq BTy] {BVal : BTy → Type}
    (decl : (b : BTy) → BehaviorDecl MTy MVal Ctx BTy BVal b)
    (InitialBehavior : BTy) (initial : BVal InitialBehavior)
    (prereceive postreceive : Ctx → Ctx) (defaultSelf : Ctx)
    (b₀ : BTy) (behavior : BVal b₀) (self : Ctx) (M₀ : MTy) (m : MVal M₀)
    (M₂ : MTy) (m₂ : MVal M₂) (fuel : Nat)
    (hne : M₂ ≠ M₀) (hni : ¬ ignoredBy (decl b₀).IgnoredMessage M₀)
    (nested : StateMachine (⟨.variant BTy BVal decl InitialBehavior initial, prereceive,
      postreceive, defaultSelf⟩ : InternalStateMachine MTy MVal Ctx))
    (hnested : nested = StateMachine.receive
      ⟨.variant BTy BVal decl InitialBehavior initial, prereceive, postreceive, defaultSelf⟩
      ⟨⟨b₀, behavior⟩, prereceive self⟩ M₂ m₂) :
    Reentrant.receive (Reentrant.reentering decl prereceive postreceive b₀ M₀ M₂ m₂)
        (fuel + 1) M₂ m₂ ⟨⟨b₀, behavior⟩, prereceive self⟩
        = some ⟨nested._behavior, nested._self⟩ ∧
      Reentrant.receive (Reentrant.reentering decl prereceive postreceive b₀ M₀ M₂ m₂)
        (fuel + 2) M₀ m ⟨⟨b₀, behavior⟩, self⟩
        = some ⟨((((decl b₀).receive behavior nested._self M₀ m).2).map
                  (assignNext (decl b₀).NextBehavior)).getD nested._behavior,
                postreceive ((decl b₀).receive behavior nested._self M₀ m).1⟩ := by
  subst hnested
  have hen : handlerEnabled (decl b₀).IgnoredMessage M₀ = true :=
    (handlerEnabled_eq_true_iff _ _).2 hni
  have hcall : ∀ n, Reentrant.receive
      (Reentrant.reentering decl prereceive postreceive b₀ M₀ M₂ m₂) (n + 1) M₂ m₂
        ⟨⟨b₀, behavior⟩, prereceive self⟩
      = some ⟨(StateMachine.receive ⟨.variant BTy BVal decl InitialBehavior initial, prereceive,
                postreceive, defaultSelf⟩ ⟨⟨b₀, behavior⟩, prereceive self⟩ M₂ m₂)._behavior,
              (StateMachine.receive ⟨.variant BTy BVal decl InitialBehavior initial, prereceive,
                postreceive, defaultSelf⟩ ⟨⟨b₀, behavior⟩, prereceive self⟩ M₂ m₂)._self⟩ := by
    intro n
    by_cases hig : ignoredBy (decl b₀).IgnoredMessage M₂
    · have hoff := (handlerEnabled_eq_false_iff _ _).2 hig
      rw [receive_variant_ignored BTy BVal decl InitialBehavior initial prereceive postreceive
        defaultSelf b₀ behavior (prereceive self) M₂ m₂ hig]
      simp [Reentrant.receive, Reentrant.reentering, hoff]
    · have hon := (handlerEnabled_eq_true_iff _ _).2 hig
      rw [receive_variant_handled BTy BVal decl InitialBehavior initial prereceive postreceive
        defaultSelf b₀ behavior (prereceive self) M₂ m₂ hig]
      simp only [Reentrant.receive, Reentrant.reentering, Option.bind, hon, if_true,
        Reentrant.plainHandler, hne, and_false, if_false]
      rcases hr : (decl b₀).receive behavior (prereceive (prereceive self)) M₂ m₂
        with ⟨c, _ | nb⟩ <;> simp
  refine ⟨hcall fuel, ?_⟩
  have hn := hcall fuel
  simp only [Reentrant.receive, Reentrant.reentering, Option.bind, hen, if_true,
    Reentrant.plainHandler, and_self] at hn ⊢
  rw [hn]
  rcases hr : (decl b₀).receive behavior (StateMachine.receive
      ⟨.variant BTy BVal decl InitialBehavior initial, prereceive, postreceive, defaultSelf⟩
      ⟨⟨b₀, behavior⟩, prereceive self⟩ M₂ m₂)._self M₀ m with ⟨c, _ | nb⟩ <;> simp [hr]

/-- Witness of the amended C8 on the turnstile: the handler of `Unlocked`,
handling `Push`, calls `receive(Coin{})` on its own turnstile. -/
theorem nested_receive_runs_as_ordinary_call_witness :
    Reentrant.receive
        (Reentrant.reentering (Turnstile.decl none) (fun self => self ++ [Event.prereceive])
          (fun self => self ++ [Event.postreceive]) .Unlocked .Push .Coin ())
        1 .Coin () ⟨⟨.Unlocked, ()⟩, [Event.prereceive]⟩
      = some ⟨⟨.Unlocked, ()⟩, [Event.prereceive, Event.prereceive, Event.postreceive]⟩ ∧
    Reentrant.receive
        (Reentrant.reentering (Turnstile.decl none) (fun self => self ++ [Event.prereceive])
          (fun self => self ++ [Event.postreceive]) .Unlocked .Push .Coin ())
        2 .Push () ⟨⟨.Unlocked, ()⟩, []⟩
      = some ⟨⟨.Locked, ()⟩, [Event.prereceive, Event.prereceive, Event.postreceive,
          Event.handler, Event.postreceive]⟩ :=
  nested_receive_runs_as_ordinary_call (Turnstile.decl none) .Locked ()
    (fun self => self ++ [Event.prereceive]) (fun self => self ++ [Event.postreceive]) []
    .Unlocked () [] .Push () .Coin () 0 (by decide) (by decide) _ rfl

/-- C11, ordering and determinism. The state of an instance after the calls
`receive(m1); ...; receive(mn)` is the left fold of the single-call `receive`
over the sequence, so each call is complete (hooks and transition) before the
next starts: the state after one more message is `receive` of the state after
those before it, and the active behaviors passed through are those of the
states after the prefixes. Two instances of one state machine type that are
newly constructed (more generally, that have equal data members) pass through
the same sequence of active behaviors on the same message sequence. -/
theorem ordering_and_determinism (d : InternalStateMachine MTy MVal Ctx)
    (ms : List (AnyMessage MTy MVal)) :
    (∀ sm : StateMachine d,
      StateMachine.receiveAll d sm ms
        = ms.foldl (fun s m => StateMachine.receive d s m.1 m.2) sm) ∧
    (∀ (sm : StateMachine d) (m : AnyMessage MTy MVal),
      StateMachine.receiveAll d sm (ms ++ [m])
        = StateMachine.receive d (StateMachine.receiveAll d sm ms) m.1 m.2) ∧
    (∀ (sm : StateMachine d) (k : Nat), k < ms.length →
      (StateMachine.behaviors d sm ms)[k]?
        = some (StateMachine.receiveAll d sm (ms.take (k + 1)))._behavior) ∧
    (∀ sm₁ sm₂ : StateMachine d,
      sm₁ = StateMachine.construct d → sm₂ = StateMachine.construct d →
      StateMachine.behaviors d sm₁ ms = StateMachine.behaviors d sm₂ ms) ∧
    (∀ sm₁ sm₂ : StateMachine d,
      sm₁._behavior = sm₂._behavior → sm₁._self = sm₂._self →
      StateMachine.behaviors d sm₁ ms = StateMachine.behaviors d sm₂ ms) := by
  refine ⟨receiveAll_eq_foldl d ms, ?_, behaviors_get? d ms, ?_, ?_⟩
  · intro sm m
    rw [receiveAll_append]
    rfl
  · intro sm₁ sm₂ h₁ h₂
    rw [h₁, h₂]
  · intro sm₁ sm₂ hb hs
    rcases sm₁ with ⟨b₁, c₁⟩
    rcases sm₂ with ⟨b₂, c₂⟩
    cases hb
    cases hs
    rfl

/-- Witness of C11 on the turnstile: two newly constructed turnstiles that get
`Push`, `Coin`, `Coin`, `Push` both pass through `Locked`, `Unlocked`,
`Unlocked`, `Locked`. -/
theorem ordering_and_determinism_witness :
    StateMachine.behaviors (Turnstile.machine none) (StateMachine.construct (Turnstile.machine none))
        [⟨.Push, ()⟩, ⟨.Coin, ()⟩, ⟨.Coin, ()⟩, ⟨.Push, ()⟩]
      = StateMachine.behaviors (Turnstile.machine none) ⟨⟨.Locked, ()⟩, []⟩
        [⟨.Push, ()⟩, ⟨.Coin, ()⟩, ⟨.Coin, ()⟩, ⟨.Push, ()⟩] ∧
    StateMachine.behaviors (Turnstile.machine none) ⟨⟨.Locked, ()⟩, []⟩
        [⟨.Push, ()⟩, ⟨.Coin, ()⟩, ⟨.Coin, ()⟩, ⟨.Push, ()⟩]
      = [⟨.Locked, ()⟩, ⟨.Unlocked, ()⟩, ⟨.Unlocked, ()⟩, ⟨.Locked, ()⟩] :=
  ⟨(ordering_and_determinism (Turnstile.machine none)
      [⟨.Push, ()⟩, ⟨.Coin, ()⟩, ⟨.Coin, ()⟩, ⟨.Push, ()⟩]).2.2.2.1 _ _ rfl rfl, by rfl⟩

/-- C13, only the active alternative decides the outcome. Two variant machines
with the same hooks whose declarations agree on the alternative `b` that is
active when the call starts (they may differ in every other alternative, and
in the initial behavior) leave the same active behavior and the same context
after `receive`, for the same state and message. -/
theorem active_alternative_decides
    (BTy : Type) (BVal : BTy → Type)
    (decl decl' : (b : BTy) → BehaviorDecl MTy MVal Ctx BTy BVal b)
    (InitialBehavior InitialBehavior' : BTy)
    (initial : BVal InitialBehavior) (initial' : BVal InitialBehavior')
    (prereceive postreceive : Ctx → Ctx) (defaultSelf : Ctx)
    (b : BTy) (behavior : BVal b) (self : Ctx) (M : MTy) (m : MVal M)
    (hb : decl b = decl' b) :
    (StateMachine.receive
        ⟨.variant BTy BVal decl InitialBehavior initial, prereceive, postreceive, defaultSelf⟩
        ⟨⟨b, behavior⟩, self⟩ M m)._behavior
      = (StateMachine.receive
        ⟨.variant BTy BVal decl' InitialBehavior' initial', prereceive, postreceive, defaultSelf⟩
        ⟨⟨b, behavior⟩, self⟩ M m)._behavior ∧
    (StateMachine.receive
        ⟨.variant BTy BVal decl InitialBehavior initial, prereceive, postreceive, defaultSelf⟩
        ⟨⟨b, behavior⟩, self⟩ M m)._self
      = (StateMachine.receive
        ⟨.variant BTy BVal decl' InitialBehavior' initial', prereceive, postreceive, defaultSelf⟩
        ⟨⟨b, behavior⟩, self⟩ M m)._self := by
  by_cases hig : ignoredBy (decl b).IgnoredMessage M
  · have hig' : ignoredBy (decl' b).IgnoredMessage M := hb ▸ hig
    rw [receive_variant_ignored BTy BVal decl InitialBehavior initial prereceive postreceive
        defaultSelf b behavior self M m hig,
      receive_variant_ignored BTy BVal decl' InitialBehavior' initial' prereceive postreceive
        defaultSelf b behavior self M m hig']
    exact ⟨rfl, rfl⟩
  · have hig' : ¬ ignoredBy (decl' b).IgnoredMessage M := hb ▸ hig
    rw [receive_variant_handled BTy BVal decl InitialBehavior initial prereceive postreceive
        defaultSelf b behavior self M m hig,
      receive_variant_handled BTy BVal decl' InitialBehavior' initial' prereceive postreceive
        defaultSelf b behavior self M m hig']
    dsimp only
    rw [hb]
    exact ⟨rfl, rfl⟩

/-- Witness of C13: the turnstile and the machine with `jammedDecl`, which
differ in `Unlocked` only, do the same when `Locked` receives `Coin`. -/
theorem active_alternative_decides_witness :
    (StateMachine.receive (Turnstile.machine none) ⟨⟨.Locked, ()⟩, []⟩ .Coin ())._behavior
      = (StateMachine.receive
          ⟨.variant Turnstile.State (fun _ => Unit) Turnstile.jammedDecl .Unlocked (),
            fun self => self ++ [Event.prereceive], fun self => self ++ [Event.postreceive], []⟩
          ⟨⟨.Locked, ()⟩, []⟩ .Coin ())._behavior ∧
    (StateMachine.receive (Turnstile.machine none) ⟨⟨.Locked, ()⟩, []⟩ .Coin ())._self
      = (StateMachine.receive
          ⟨.variant Turnstile.State (fun _ => Unit) Turnstile.jammedDecl .Unlocked (),
            fun self => self ++ [Event.prereceive], fun self => self ++ [Event.postreceive], []⟩
          ⟨⟨.Locked, ()⟩, []⟩ .Coin ())._self :=
  active_alternative_decides Turnstile.State (fun _ => Unit) (Turnstile.decl none)
    Turnstile.jammedDecl .Locked .Unlocked () ()
    (fun self => self ++ [Event.prereceive]) (fun self => self ++ [Event.postreceive]) []
    .Locked () [] .Coin () rfl

/-- C14, `receive` has no failing path. With the dereference of the returned
optional as an operation that fails on an empty optional, `receive` ends
without error for every machine, state and message, in the state the plain
embedding computes: the dereference is made only under `if (newBehavior)`, so
its error branch is never taken. -/
theorem receive_never_fails (d : InternalStateMachine MTy MVal Ctx) (sm : StateMachine d)
    (M : MTy) (m : MVal M) :
    Checked.receive d sm M m = .ok (StateMachine.receive d sm M m) ∧
    ∀ e : ReceiveError, Checked.receive d sm M m ≠ .error e := by
  have h := Checked.receive_eq_ok d sm M m
  refine ⟨h, ?_⟩
  intro e he
  rw [h] at he
  cases he

/-- C15, the single-type form. `receive` never consults `IgnoredMessage`: for
every state and message the handler is called once, on the context
`prereceive` left, and `postreceive` is applied to the context the handler
left; the active behavior becomes the returned value when the returned
optional is non-empty and stays as it was when it is empty; and machines that
differ only in the declared `IgnoredMessage` give the same result. -/
theorem single_form_always_calls_handler
    (B : Type) (ig ig' : Shape MTy) (recv : B → Ctx → (M : MTy) → MVal M → Ctx × Option B)
    (initial : B) (prereceive postreceive : Ctx → Ctx) (defaultSelf : Ctx)
    (behavior : B) (self : Ctx) (count : Nat) (M : MTy) (m : MVal M) :
    ((StateMachine.receive ⟨.single B ig recv initial, prereceive, postreceive, defaultSelf⟩
        ⟨behavior, self⟩ M m)._self
      = postreceive (recv behavior (prereceive self) M m).1) ∧
    (∀ V : B, (recv behavior (prereceive self) M m).2 = some V →
      (StateMachine.receive ⟨.single B ig recv initial, prereceive, postreceive, defaultSelf⟩
        ⟨behavior, self⟩ M m)._behavior = V) ∧
    ((recv behavior (prereceive self) M m).2 = none →
      (StateMachine.receive ⟨.single B ig recv initial, prereceive, postreceive, defaultSelf⟩
        ⟨behavior, self⟩ M m)._behavior = behavior) ∧
    ((StateMachine.receive
        ⟨.single B ig (countingHandler recv) initial, onContext prereceive,
          onContext postreceive, (defaultSelf, 0)⟩
        ⟨behavior, (self, count)⟩ M m)._self.2 = count + 1) ∧
    ((StateMachine.receive ⟨.single B ig recv initial, prereceive, postreceive, defaultSelf⟩
        ⟨behavior, self⟩ M m)._behavior
      = (StateMachine.receive ⟨.single B ig' recv initial, prereceive, postreceive, defaultSelf⟩
        ⟨behavior, self⟩ M m)._behavior) ∧
    ((StateMachine.receive ⟨.single B ig recv initial, prereceive, postreceive, defaultSelf⟩
        ⟨behavior, self⟩ M m)._self
      = (StateMachine.receive ⟨.single B ig' recv initial, prereceive, postreceive, defaultSelf⟩
        ⟨behavior, self⟩ M m)._self) := by
  refine ⟨?_, ?_, ?_, ?_, ?_, ?_⟩
  · rw [receive_single]
  · intro V hV
    rw [receive_single, hV]
    rfl
  · intro hnone
    rw [receive_single, hnone]
    rfl
  · rw [receive_single]
    simp [onContext, countingHandler]
  · rw [receive_single, receive_single]
  · rw [receive_single, receive_single]

/-- Witness of C15 on the counter machine, which declares `IgnoredMessage =
Push`: `receive(Push{})` with the counter at 4 calls the handler, which
returns 5, and 5 is the new active behavior. -/
theorem single_form_always_calls_handler_witness :
    (StateMachine.receive Counter.machine ⟨(4 : Nat), []⟩ .Push ())._behavior = (5 : Nat) :=
  (single_form_always_calls_handler Nat (.single .Push) (.single .Push) Counter.receive 0
    (fun self => self ++ [Event.prereceive]) (fun self => self ++ [Event.postreceive]) []
    4 [] 0 .Push ()).2.1 5 rfl

end SM
